import Mathlib

/-
Verification of the MCP career-intelligence server core: a shallow embedding of
the JSON-RPC request/response engine from src/server/src (tools.handler.ts,
base.handler.ts, initialization.handler.ts, server.ts transport layer) together
with proofs about the request lifecycle, the dispatcher, the message codec of
both transports, the handshake handlers, and the broadcast fan-out.

Conventions of the embedding:
- JavaScript objects already deserialized from the wire are modelled by the
  inductive `Json`; the external `JSON.parse` library call of the stdio
  transport is modelled as an explicit parameter of type
  `String → Except String Json` (its success/failure outcome).
- Stateful TypeScript classes become explicit state passing; `async` methods
  that can throw become `Except`-valued functions.  Downstream Notion API
  calls (IO) are oracle parameters of the handlers that use them.
- Source messages containing a single quote use the escape \x27 so the Lean
  string equals the TypeScript string character for character.
-/

/-- A deserialized JSON value, as handled by the transports (JavaScript values
coming out of Socket.IO frames or JSON.parse).  Numbers are modelled as
integers: every numeric value the protocol layer inspects is an id or a code. -/
inductive Json where
  | null
  | bool (b : Bool)
  | num (n : Int)
  | str (s : String)
  | arr (items : List Json)
  | obj (fields : List (String × Json))

/-- First binding of a key in a JavaScript object, `undefined` when absent. -/
def lookupField : List (String × Json) → String → Option Json
  | [], _ => none
  | kv :: rest, k => if kv.1 == k then some kv.2 else lookupField rest k

/-- Property access `v[k]` on a JavaScript value: `undefined` (`none`) on
non-objects, the bound value on objects.  (Access on `null` throws in JS; the
one place that matters, `StdioTransport.parseMessage`, handles `.null`
before calling this.) -/
def jsonGet : Json → String → Option Json
  | .obj fs, k => lookupField fs k
  | _, _ => none

/-- String-valued field access with the empty string for anything else; used
only at points where prior validation guarantees the field is a string. -/
def jsonGetStr (j : Json) (k : String) : String :=
  match jsonGet j k with
  | some (.str s) => s
  | _ => ""

/-- The runtime value of a request `id`: the TS type says `string|number|null`,
and a notification arriving over the wire simply has no `id` field (`undef`);
`other` keeps any other deserialized value that a raw frame could carry. -/
inductive RpcId where
  | str (s : String)
  | num (n : Int)
  | null
  | undef
  | other (j : Json)

/-- `JSONRPCRequest` from types/mcp.types.ts (plus the runtime-possible
`undef`/`other` ids): `{jsonrpc, id, method, params?}`. -/
structure Request where
  jsonrpc : String
  id : RpcId
  method : String
  params : Option Json

/-- The `MCPError` class / `JSONRPCError` shape: `{code, message, data?}`.
`toJSONRPCError` copies exactly these three fields, so one structure serves
for both the thrown error and its wire form. -/
structure MCPError where
  code : Int
  message : String
  data : Option Json

/-- `JSONRPCResponse`: `{jsonrpc, id, result?, error?}`. -/
structure Response where
  jsonrpc : String
  id : RpcId
  result : Option Json
  error : Option MCPError

/-- Error codes from the `MCPErrorCode` enum in types/mcp.types.ts. -/
def MCPErrorCode.PARSE_ERROR : Int := -32700

/-- JSON-RPC invalid-request code from the `MCPErrorCode` enum. -/
def MCPErrorCode.INVALID_REQUEST : Int := -32600

/-- JSON-RPC method-not-found code from the `MCPErrorCode` enum. -/
def MCPErrorCode.METHOD_NOT_FOUND : Int := -32601

/-- JSON-RPC invalid-params code from the `MCPErrorCode` enum. -/
def MCPErrorCode.INVALID_PARAMS : Int := -32602

/-- JSON-RPC internal-error code from the `MCPErrorCode` enum. -/
def MCPErrorCode.INTERNAL_ERROR : Int := -32603

/-- MCP-specific initialization-failure code from the `MCPErrorCode` enum. -/
def MCPErrorCode.INITIALIZATION_FAILED : Int := -32000

/-- MCP-specific tool-execution-failure code from the `MCPErrorCode` enum. -/
def MCPErrorCode.TOOL_EXECUTION_ERROR : Int := -32002

/-- MCP-specific transport-failure code from the `MCPErrorCode` enum. -/
def MCPErrorCode.TRANSPORT_ERROR : Int := -32005

/-- A thrown JavaScript value inside a handler: either a typed `MCPError`, or
any other `Error` (TypeError, Joi internals, Notion client failures), kept as
its message. -/
inductive Thrown where
  | mcp (e : MCPError)
  | other (message : String)

/-- `error.message` of a thrown value (`MCPError extends Error`). -/
def Thrown.message : Thrown → String
  | .mcp e => e.message
  | .other m => m

/-! ### JavaScript string helpers (structural on the character list) -/

/-- `needle` begins `hay` (helper for `String.prototype.includes`). -/
def startsWithChars : List Char → List Char → Bool
  | [], _ => true
  | _ :: _, [] => false
  | p :: ps, c :: cs => p == c && startsWithChars ps cs

/-- `hay` contains `needle` somewhere (helper for `includes`). -/
def containsChars (needle : List Char) : List Char → Bool
  | [] => startsWithChars needle []
  | c :: cs => startsWithChars needle (c :: cs) || containsChars needle cs

/-- JavaScript `hay.includes(needle)`. -/
def strIncludes (hay needle : String) : Bool :=
  containsChars needle.data hay.data

/-- JavaScript `s.split(c)` on a character list: never empty, one entry per
separator-delimited (possibly empty) segment. -/
def splitChars (sep : Char) : List Char → List (List Char)
  | [] => [[]]
  | c :: cs =>
    if c == sep then [] :: splitChars sep cs
    else
      match splitChars sep cs with
      | [] => [[c]]
      | l :: ls => (c :: l) :: ls

/-- JavaScript `s.split('\n')`. -/
def jsSplitNewline (s : String) : List String :=
  (splitChars '\n' s.data).map (fun l => String.mk l)

/-- ASCII whitespace recognised by the embedding of `String.prototype.trim`
(the JS original also trims rarer Unicode space characters, which never occur
in this protocol traffic). -/
def isJsWs (c : Char) : Bool :=
  c == ' ' || c == '\t' || c == '\n' || c == '\r'

/-- JavaScript `s.trim()`. -/
def jsTrim (s : String) : String :=
  String.mk (((s.data.dropWhile isJsWs).reverse.dropWhile isJsWs).reverse)

/-! ### Handler contract: BaseMCPHandler (base.handler.ts) -/

/-- A concrete MCP handler: its bound method name, its parameter validation
(`validateParams`, built from the subclass Joi schema; `none` in, `none` out
models Joi passing `undefined` through an optional top-level object), and its
`execute` body.  `BaseMCPHandler.handle` below is the shared pipeline. -/
structure Handler where
  method : String
  validateParams : Option Json → Except MCPError (Option Json)
  execute : Option Json → Request → Except Thrown Json

/-- `BaseMCPHandler.validateRequest`: structural validation — the `jsonrpc`
field must be the literal "2.0" and the `method` must equal the method this
handler is bound to. -/
def BaseMCPHandler.validateRequest (h : Handler) (req : Request) : Except Thrown Unit :=
  if req.jsonrpc != "2.0" then
    .error (.mcp ⟨MCPErrorCode.INVALID_REQUEST, "Invalid JSON-RPC version", none⟩)
  else if req.method != h.method then
    .error (.mcp ⟨MCPErrorCode.METHOD_NOT_FOUND,
      "Expected method \x27" ++ h.method ++ "\x27, got \x27" ++ req.method ++ "\x27", none⟩)
  else .ok ()

/-- The try-block of `BaseMCPHandler.handle`: structural validation, then
parameter validation, then execution, short-circuiting on the first throw. -/
def BaseMCPHandler.runPipeline (h : Handler) (req : Request) : Except Thrown Json :=
  match BaseMCPHandler.validateRequest h req with
  | .error t => .error t
  | .ok _ =>
    match h.validateParams req.params with
    | .error e => .error (.mcp e)
    | .ok vp => h.execute vp req

/-- `BaseMCPHandler.handle`: wraps the pipeline outcome into a JSON-RPC
response echoing the request id — result on success, the `MCPError`'s wire
form on a typed throw, and a stripped `InternalError` on anything else
(`dev` is the `NODE_ENV === "development"` diagnostic mode, which attaches
the original message as data). -/
def BaseMCPHandler.handle (dev : Bool) (h : Handler) (req : Request) : Response :=
  match BaseMCPHandler.runPipeline h req with
  | .ok result => ⟨"2.0", req.id, some result, none⟩
  | .error (.mcp e) => ⟨"2.0", req.id, none, some e⟩
  | .error (.other msg) =>
    ⟨"2.0", req.id, none, some ⟨MCPErrorCode.INTERNAL_ERROR, "Internal server error",
      if dev then some (.obj [("originalError", .str msg)]) else none⟩⟩

/-! ### Handler registry / dispatcher (base.handler.ts) -/

/-- The registry's `Map<MCPMethod, BaseMCPHandler>`, in insertion order. -/
abbrev Registry : Type := List (String × Handler)

/-- `MCPHandlerRegistry.getHandler`: `this.handlers.get(method)`. -/
def MCPHandlerRegistry.getHandler : Registry → String → Option Handler
  | [], _ => none
  | e :: rest, m => if e.1 == m then some e.2 else MCPHandlerRegistry.getHandler rest m

/-- `MCPHandlerRegistry.hasHandler`: `this.handlers.has(method)`. -/
def MCPHandlerRegistry.hasHandler (reg : Registry) (m : String) : Bool :=
  (MCPHandlerRegistry.getHandler reg m).isSome

/-- `MCPHandlerRegistry.register`: throws when the handler's method is already
bound, otherwise inserts the new binding. -/
def MCPHandlerRegistry.register (reg : Registry) (h : Handler) : Except String Registry :=
  if MCPHandlerRegistry.hasHandler reg h.method then
    .error ("Handler for method \x27" ++ h.method ++ "\x27 is already registered")
  else .ok (reg ++ [(h.method, h)])

/-- The registry's map after a `register` call: unchanged when the call threw. -/
def MCPHandlerRegistry.registryAfter (reg : Registry) (h : Handler) : Registry :=
  match MCPHandlerRegistry.register reg h with
  | .ok reg2 => reg2
  | .error _ => reg

/-- `MCPHandlerRegistry.handleRequest`: looks the handler up by
`request.method`; when absent synthesizes a `MethodNotFound` response,
otherwise delegates to the handler's pipeline. -/
def MCPHandlerRegistry.handleRequest (dev : Bool) (reg : Registry) (req : Request) : Response :=
  match MCPHandlerRegistry.getHandler reg req.method with
  | none =>
    ⟨"2.0", req.id, none,
      some ⟨MCPErrorCode.METHOD_NOT_FOUND,
        "Method \x27" ++ req.method ++ "\x27 not found", none⟩⟩
  | some h => BaseMCPHandler.handle dev h req

/-! ### Joi schema embeddings

The subclasses declare Joi object schemas; Joi (v17 defaults) rejects unknown
keys, requires the fields marked `required`, and accepts an absent top-level
`params` (`undefined`) because the schema object itself is not `required`.
Exact Joi diagnostic messages and `convert`-mode coercions are not modelled;
no theorem below depends on them. -/

/-- Every key of a JavaScript object is in the allowed key set. -/
def joiKeysAllowed (allowed : List String) (fs : List (String × Json)) : Bool :=
  fs.all (fun kv => allowed.contains kv.1)

/-- An optional `Joi.object()` field: absent, or any non-array object. -/
def joiOptObj : Option Json → Bool
  | none => true
  | some (.obj _) => true
  | some _ => false

/-- An optional `Joi.object({flags...})` field whose allowed keys are all
optional booleans (the capability sub-objects of the initialize schema). -/
def joiFlagObj (allowed : List String) : Option Json → Bool
  | none => true
  | some (.obj fs) =>
    joiKeysAllowed allowed fs && fs.all (fun kv => match kv.2 with
      | .bool _ => true
      | _ => false)
  | some _ => false

/-- An optional `Joi.string()` field. -/
def joiOptStr : Option Json → Bool
  | none => true
  | some (.str _) => true
  | some _ => false

/-! ### InitializedHandler (initialization.handler.ts) -/

/-- The `initialized` handler: no schema (`getParamsSchema` returns null, so
`validateParams` yields `params || {}`), `execute` returns `{}`. -/
def initializedHandler : Handler :=
  ⟨"initialized",
   fun p => .ok (some (p.getD (.obj []))),
   fun _ _ => .ok (.obj [])⟩

/-! ### InitializeHandler (initialization.handler.ts) -/

/-- Server identity injected into `InitializeHandler` at construction. -/
structure ServerInfo where
  name : String
  version : String

/-- The client `capabilities` sub-schema of the initialize Joi schema. -/
def validClientCapabilities : Json → Bool
  | .obj fs =>
    joiKeysAllowed
      ["experimental", "sampling", "tools", "resources", "prompts", "logging", "roots"] fs
    && joiOptObj (lookupField fs "experimental")
    && joiOptObj (lookupField fs "sampling")
    && joiFlagObj ["listChanged"] (lookupField fs "tools")
    && joiFlagObj ["subscribe", "listChanged"] (lookupField fs "resources")
    && joiFlagObj ["listChanged"] (lookupField fs "prompts")
    && joiOptObj (lookupField fs "logging")
    && joiFlagObj ["listChanged"] (lookupField fs "roots")
  | _ => false

/-- The `clientInfo` sub-schema: `{name: string required, version: string required}`. -/
def validClientInfo : Json → Bool
  | .obj fs =>
    joiKeysAllowed ["name", "version"] fs
    && (match lookupField fs "name" with | some (.str _) => true | _ => false)
    && (match lookupField fs "version" with | some (.str _) => true | _ => false)
  | _ => false

/-- The whole initialize Joi schema applied to a present `params` value. -/
def initializeParamsOk : Json → Bool
  | .obj fs =>
    joiKeysAllowed ["protocolVersion", "capabilities", "clientInfo"] fs
    && (match lookupField fs "protocolVersion" with | some (.str _) => true | _ => false)
    && (match lookupField fs "capabilities" with
        | some c => validClientCapabilities c
        | none => false)
    && (match lookupField fs "clientInfo" with
        | some ci => validClientInfo ci
        | none => false)
  | _ => false

/-- `InitializeHandler`'s `validateParams`: Joi passes `undefined` through
(the top-level object is optional), accepts schema-conforming objects, and
raises `InvalidParams` otherwise. -/
def InitializeHandler.validateParams (p : Option Json) : Except MCPError (Option Json) :=
  match p with
  | none => .ok none
  | some v =>
    if initializeParamsOk v then .ok (some v)
    else .error ⟨MCPErrorCode.INVALID_PARAMS, "Parameter validation failed", none⟩

/-- `InitializeHandler.isProtocolVersionSupported`: exact membership in the
fixed allow-list `["2024-11-05"]`. -/
def InitializeHandler.isProtocolVersionSupported (version : String) : Bool :=
  ["2024-11-05"].contains version

/-- The static server capability declaration built inside
`InitializeHandler.execute`. -/
def serverCapabilitiesJson : Json :=
  .obj [("tools", .obj [("listChanged", .bool true)]),
        ("resources", .obj [("subscribe", .bool true), ("listChanged", .bool true)]),
        ("prompts", .obj [("listChanged", .bool true)]),
        ("logging", .obj [])]

/-- `InitializeHandler.getServerInstructions()`: the fixed usage text. -/
def serverInstructions : String :=
  "# MCP Career Intelligence Server\n\nThis server provides access to Mark Cena\x27s career intelligence data through the Notion API.\n\n## Available Tools:\n- **get_career_initiatives**: Retrieve current career development initiatives\n- **get_achievements**: Fetch accomplishments and achievements\n- **get_tasks**: Get current career development tasks\n- **search_career_data**: Search across all career data\n- **get_skill_analysis**: Analyze skills and competencies\n\n## Available Resources:\n- **notion://initiatives**: Career initiatives database\n- **notion://achievements**: Achievements database  \n- **notion://tasks**: Tasks database\n\n## Available Prompts:\n- **career_summary**: Generate a comprehensive career summary\n- **skill_gap_analysis**: Analyze skill gaps for target roles\n- **interview_preparation**: Prepare for technical interviews\n\nThe server integrates with Notion API to provide real-time access to career development data for both Claude.ai integration and portfolio presentation."

/-- The `InitializeResult` literal assembled by `InitializeHandler.execute` on
success: hard-coded protocol version, the static capability set, the injected
server identity, and the fixed instructions. -/
def initializeResultJson (si : ServerInfo) : Json :=
  .obj [("protocolVersion", .str "2024-11-05"),
        ("capabilities", serverCapabilitiesJson),
        ("serverInfo", .obj [("name", .str si.name), ("version", .str si.version)]),
        ("instructions", .str serverInstructions)]

/-- `InitializeHandler.execute`: on validated params, rejects any protocol
version outside the allow-list with `InitializationFailed` carrying the
supported list as data, and otherwise returns the fixed result.  With absent
params (Joi passed `undefined` through) the method's first statement reads
`params.clientInfo.name` and throws a TypeError. -/
def InitializeHandler.execute (si : ServerInfo) (vp : Option Json) (_req : Request) :
    Except Thrown Json :=
  match vp with
  | none =>
    .error (.other "Cannot read properties of undefined (reading \x27clientInfo\x27)")
  | some p =>
    let version := jsonGetStr p "protocolVersion"
    if InitializeHandler.isProtocolVersionSupported version then
      .ok (initializeResultJson si)
    else
      .error (.mcp ⟨MCPErrorCode.INITIALIZATION_FAILED,
        "Unsupported protocol version: " ++ version ++ ". Supported versions: 2024-11-05",
        some (.obj [("supportedVersions", .arr [.str "2024-11-05"])])⟩)

/-- The assembled `initialize` handler. -/
def initializeHandler (si : ServerInfo) : Handler :=
  ⟨"initialize", InitializeHandler.validateParams, InitializeHandler.execute si⟩

/-! ### ToolsCallHandler (tools.handler.ts) -/

/-- The Notion-backed private methods of `ToolsCallHandler`, abstracted as
oracles: each performs environment lookups and Notion API IO
(`getSkillAnalysis` is a pure placeholder whose stringified payload is outside
the scope of the claims), returning a tool result or throwing. -/
structure ToolsCallOps where
  getCareerInitiatives : Json → Except Thrown Json
  getAchievements : Json → Except Thrown Json
  getTasks : Json → Except Thrown Json
  searchCareerData : Json → Except Thrown Json
  getSkillAnalysis : Json → Except Thrown Json

/-- The `tools/call` Joi schema: `name` a required string, `arguments` an
optional object, `progressToken` an optional string-or-number. -/
def toolsCallParamsOk : Json → Bool
  | .obj fs =>
    joiKeysAllowed ["name", "arguments", "progressToken"] fs
    && (match lookupField fs "name" with | some (.str _) => true | _ => false)
    && joiOptObj (lookupField fs "arguments")
    && (match lookupField fs "progressToken" with
        | none => true
        | some (.str _) => true
        | some (.num _) => true
        | _ => false)
  | _ => false

/-- `ToolsCallHandler`'s `validateParams` from its Joi schema. -/
def ToolsCallHandler.validateParams (p : Option Json) : Except MCPError (Option Json) :=
  match p with
  | none => .ok none
  | some v =>
    if toolsCallParamsOk v then .ok (some v)
    else .error ⟨MCPErrorCode.INVALID_PARAMS, "Parameter validation failed", none⟩

/-- The `MCPToolResult` returned when the catch block recognises a Notion API
failure: a text content entry with `isError: true`. -/
def toolExecutionFailedResult (msg : String) : Json :=
  .obj [("content", .arr [.obj [("type", .str "text"), ("text", .str msg)]]),
        ("isError", .bool true)]

/-- `ToolsCallHandler.execute`: dispatches on `params.name` to the five tool
implementations, throwing `MethodNotFound` for any other tool name; its catch
block converts errors whose message mentions the Notion API into an
`isError` tool result and rethrows everything else.  Absent params make the
leading `params.name` log access throw a TypeError. -/
def ToolsCallHandler.execute (ops : ToolsCallOps) (vp : Option Json) (_req : Request) :
    Except Thrown Json :=
  match vp with
  | none =>
    .error (.other "Cannot read properties of undefined (reading \x27name\x27)")
  | some p =>
    let name := jsonGetStr p "name"
    let args := (jsonGet p "arguments").getD (.obj [])
    let attempt : Except Thrown Json :=
      match name with
      | "get_career_initiatives" => ops.getCareerInitiatives args
      | "get_achievements" => ops.getAchievements args
      | "get_tasks" => ops.getTasks args
      | "search_career_data" => ops.searchCareerData args
      | "get_skill_analysis" => ops.getSkillAnalysis args
      | _ => .error (.mcp ⟨MCPErrorCode.METHOD_NOT_FOUND, "Unknown tool: " ++ name, none⟩)
    match attempt with
    | .ok r => .ok r
    | .error t =>
      if strIncludes t.message "Notion API" then
        .ok (toolExecutionFailedResult ("Tool execution failed: " ++ t.message))
      else .error t

/-- The assembled `tools/call` handler over a Notion oracle. -/
def toolsCallHandler (ops : ToolsCallOps) : Handler :=
  ⟨"tools/call", ToolsCallHandler.validateParams, ToolsCallHandler.execute ops⟩

/-! ### Socket.IO message listener (server.ts, setupSocketIO) -/

/-- The per-connection `message` listener installed in `setupSocketIO`: every
inbound decoded message — request or notification alike — is run through the
dispatcher and the resulting response is handed to `transport.send`.  The
returned value is the message given to `send`; there is no branch that skips
sending. -/
def socketMessageListenerSend (dev : Bool) (reg : Registry) (message : Request) :
    Option Response :=
  some (MCPHandlerRegistry.handleRequest dev reg message)

/-! ### Transports (server.ts transport layer) -/

/-- Events a transport emits to its owner while handling inbound data. -/
inductive TransportEvent where
  | message (req : Request)
  | errorEv (e : MCPError)

/-- The decoded message a transport emits: the raw deserialized object, read
back through the `JSONRPCRequest` field accesses the rest of the system
performs on it. -/
def Request.ofJson (j : Json) : Request :=
  { jsonrpc := jsonGetStr j "jsonrpc"
  , id :=
      match jsonGet j "id" with
      | some (.str s) => .str s
      | some (.num n) => .num n
      | some .null => .null
      | none => .undef
      | some v => .other v
  , method := jsonGetStr j "method"
  , params := jsonGet j "params" }

/-- JavaScript `!data || typeof data !== "object"`: true exactly for `null`
and for primitive values (arrays pass as objects). -/
def jsNotObject : Json → Bool
  | .null => true
  | .bool _ => true
  | .num _ => true
  | .str _ => true
  | .arr _ => false
  | .obj _ => false

/-- `WebSocketTransport.handleMessage`: validates an already-deserialized
Socket.IO payload — keyed structure, `jsonrpc === "2.0"`, `method` a
non-empty string — throwing `InvalidRequest` on each violation, and yields
the decoded request otherwise. -/
def WebSocketTransport.handleMessage (data : Json) : Except MCPError Request :=
  if jsNotObject data then
    .error ⟨MCPErrorCode.INVALID_REQUEST, "Message must be a valid JSON object", none⟩
  else
    match jsonGet data "jsonrpc" with
    | some (.str "2.0") =>
      match jsonGet data "method" with
      | some (.str m) =>
        if m == "" then
          .error ⟨MCPErrorCode.INVALID_REQUEST, "Missing or invalid method field", none⟩
        else .ok (Request.ofJson data)
      | _ => .error ⟨MCPErrorCode.INVALID_REQUEST, "Missing or invalid method field", none⟩
    | _ => .error ⟨MCPErrorCode.INVALID_REQUEST, "Invalid JSON-RPC version", none⟩

/-- The socket `message` listener installed by
`WebSocketTransport.setupEventHandlers`: emits the decoded request, or — for
any failure thrown out of `handleMessage`, whatever its kind — emits a
transport `error` event carrying a fresh `ParseError`. -/
def WebSocketTransport.onSocketMessage (data : Json) : List TransportEvent :=
  match WebSocketTransport.handleMessage data with
  | .ok req => [.message req]
  | .error _ =>
    [.errorEv ⟨MCPErrorCode.PARSE_ERROR, "Failed to parse incoming message", none⟩]

/-- `StdioTransport.parseMessage` over the outcome `jp` of the external
`JSON.parse` call: a parse failure or a property access on a parsed `null`
becomes `ParseError`; a parsed value violating the envelope (`jsonrpc` not
"2.0", `method` missing, empty or non-string) becomes `InvalidRequest`;
otherwise the decoded request is emitted. -/
def StdioTransport.parseMessage (jp : String → Except String Json) (line : String) :
    Except MCPError Request :=
  match jp line with
  | .error e =>
    .error ⟨MCPErrorCode.PARSE_ERROR, "Invalid JSON message: " ++ e, none⟩
  | .ok .null =>
    .error ⟨MCPErrorCode.PARSE_ERROR,
      "Invalid JSON message: Cannot read properties of null (reading \x27jsonrpc\x27)", none⟩
  | .ok j =>
    match jsonGet j "jsonrpc" with
    | some (.str "2.0") =>
      match jsonGet j "method" with
      | some (.str m) =>
        if m == "" then
          .error ⟨MCPErrorCode.INVALID_REQUEST, "Missing or invalid method field", none⟩
        else .ok (Request.ofJson j)
      | _ => .error ⟨MCPErrorCode.INVALID_REQUEST, "Missing or invalid method field", none⟩
    | _ => .error ⟨MCPErrorCode.INVALID_REQUEST, "Invalid JSON-RPC version", none⟩

/-- The mutable state of a `StdioTransport`: its `connected` flag and the
`messageBuffer` holding the incomplete trailing fragment of the stream. -/
structure StdioState where
  connected : Bool
  messageBuffer : String

/-- The transport `error` event emitted by `handleStdinData`'s catch block. -/
def stdinDataParseError : MCPError :=
  ⟨MCPErrorCode.PARSE_ERROR, "Failed to parse stdin data", none⟩

/-- The per-line loop of `StdioTransport.handleStdinData`: blank lines are
skipped, each other line is parsed and its message emitted, and the first
line whose parse throws makes the surrounding catch emit one `ParseError`
event and abandon the remaining lines of this read. -/
def StdioTransport.processLines (jp : String → Except String Json) :
    List String → List TransportEvent
  | [] => []
  | l :: ls =>
    if jsTrim l == "" then StdioTransport.processLines jp ls
    else
      match StdioTransport.parseMessage jp (jsTrim l) with
      | .ok req => .message req :: StdioTransport.processLines jp ls
      | .error _ => [.errorEv stdinDataParseError]

/-- `StdioTransport.handleStdinData` on one non-null `stdin.read()` chunk:
appends the chunk to the buffer, splits on newlines, stores the final
(possibly empty) incomplete fragment back into the buffer, then runs the
per-line loop; the connected flag is untouched. -/
def StdioTransport.handleStdinData (jp : String → Except String Json)
    (st : StdioState) (chunk : String) : StdioState × List TransportEvent :=
  let parts := jsSplitNewline (st.messageBuffer ++ chunk)
  let lines := parts.dropLast
  (⟨st.connected, parts.getLastD ""⟩, StdioTransport.processLines jp lines)

/-! ### Transport manager broadcast (server.ts, MCPTransportManager) -/

/-- A registered transport as `broadcast` observes it: its `isConnected()`
answer and the settled outcome of awaiting `send(message)` on it. -/
structure TransportModel where
  connected : Bool
  sendOutcome : Except String Unit

/-- What `broadcast`'s per-transport async closure does to one transport:
skips it when not connected, otherwise awaits the send and catches (logs) a
failure instead of letting it escape. -/
inductive SendResult where
  | skipped
  | delivered
  | failedLogged

/-- The per-transport closure of `MCPTransportManager.broadcast`. -/
def MCPTransportManager.broadcastOne (t : TransportModel) : SendResult :=
  if t.connected then
    match t.sendOutcome with
    | .ok _ => .delivered
    | .error _ => .failedLogged
  else .skipped

/-- `MCPTransportManager.broadcast`: maps the closure over every registered
transport and `Promise.allSettled`s the results — it always resolves with one
settled outcome per transport and never rejects. -/
def MCPTransportManager.broadcast (ts : List (String × TransportModel)) :
    List (String × SendResult) :=
  ts.map (fun e => (e.1, MCPTransportManager.broadcastOne e.2))

/-! ### Concrete sample values used by the witnesses and counterexamples -/

/-- A Notion oracle whose five tool calls all succeed trivially; the sample
requests below never reach them. -/
def sampleToolsCallOps : ToolsCallOps :=
  ⟨fun _ => .ok .null, fun _ => .ok .null, fun _ => .ok .null,
   fun _ => .ok .null, fun _ => .ok .null⟩

/-- A registry holding just the real `tools/call` handler. -/
def toolsCallOnlyRegistry : Registry :=
  [("tools/call", toolsCallHandler sampleToolsCallOps)]

/-- A well-formed `tools/call` request naming a tool that does not exist. -/
def unknownToolRequest : Request :=
  ⟨"2.0", .num 1, "tools/call", some (.obj [("name", .str "bogus_tool")])⟩

/-- A registry holding just the real `initialized` handler. -/
def initializedOnlyRegistry : Registry :=
  [("initialized", initializedHandler)]

/-- An `initialized` notification as it arrives over the wire: no `id` field. -/
def initializedNotification : Request :=
  ⟨"2.0", .undef, "initialized", none⟩

/-- The server identity the bootstrap passes to `InitializeHandler`. -/
def sampleServerInfo : ServerInfo :=
  ⟨"mcp-career-intelligence-server", "1.0.0"⟩

/-- Schema-conforming `initialize` params carrying the supported version. -/
def supportedInitializeParams : Json :=
  .obj [("protocolVersion", .str "2024-11-05"),
        ("capabilities", .obj [("tools", .obj [("listChanged", .bool true)])]),
        ("clientInfo", .obj [("name", .str "claude-ai"), ("version", .str "1.0")])]

/-- The same params with a different client capability set (for the
independence half of the initialize claim). -/
def supportedInitializeParamsAltCaps : Json :=
  .obj [("protocolVersion", .str "2024-11-05"),
        ("capabilities", .obj [("sampling", .obj []),
                               ("roots", .obj [("listChanged", .bool false)])]),
        ("clientInfo", .obj [("name", .str "claude-ai"), ("version", .str "1.0")])]

/-- Schema-conforming `initialize` params carrying an unsupported version. -/
def unsupportedInitializeParams : Json :=
  .obj [("protocolVersion", .str "2025-03-26"),
        ("capabilities", .obj []),
        ("clientInfo", .obj [("name", .str "claude-ai"), ("version", .str "1.0")])]

/-- A `JSON.parse` outcome oracle for the stdio samples: the line `good`
parses to a valid envelope, everything else is a syntax error. -/
def sampleJsonParse : String → Except String Json :=
  fun s =>
    if s == "good" then .ok (.obj [("jsonrpc", .str "2.0"), ("method", .str "ping")])
    else .error "Unexpected token b in JSON at position 0"

/-- A `JSON.parse` outcome oracle whose line `env` parses fine but violates
the envelope (`jsonrpc` is "1.0"), for the codec claim. -/
def sampleJsonParseEnvelope : String → Except String Json :=
  fun s =>
    if s == "env" then .ok (.obj [("jsonrpc", .str "1.0"), ("method", .str "ping")])
    else .error "Unexpected token e in JSON at position 0"

/-! ### Predicates used by the theorems -/

/-- A transport `broadcast` should deliver to: connected, send succeeds. -/
def transportHealthy (t : TransportModel) : Prop :=
  t.connected = true ∧ t.sendOutcome = .ok ()

/-- A transport that is disconnected or whose send fails. -/
def transportBroken (t : TransportModel) : Prop :=
  t.connected = false ∨ ∃ msg, t.sendOutcome = .error msg

/-- The envelope invariants the Message Codec checks on a parsed value:
`jsonrpc` is the string "2.0" and `method` is a non-empty string. -/
def envelopeOk (j : Json) : Bool :=
  (match jsonGet j "jsonrpc" with
   | some (.str v) => v == "2.0"
   | _ => false)
  && (match jsonGet j "method" with
      | some (.str m) => !(m == "")
      | _ => false)

/-- A stdin line the per-line loop gets past without throwing: blank after
trimming, or parsed successfully. -/
def lineOk (jp : String → Except String Json) (l : String) : Prop :=
  jsTrim l = "" ∨ ∃ req, StdioTransport.parseMessage jp (jsTrim l) = .ok req

/-- The event (if any) a single non-failing stdin line contributes. -/
def lineDelivery (jp : String → Except String Json) (l : String) :
    Option TransportEvent :=
  if jsTrim l == "" then none
  else
    match StdioTransport.parseMessage jp (jsTrim l) with
    | .ok req => some (.message req)
    | .error _ => none

/-- The wire code of the error a codec validation produced, if it failed. -/
def exceptErrCode : Except MCPError Request → Option Int
  | .error e => some e.code
  | .ok _ => none

/-- Three registered transports for the broadcast witness: the middle one is
disconnected. -/
def sampleTransports : List (String × TransportModel) :=
  [("conn-a", ⟨true, .ok ()⟩), ("conn-b", ⟨false, .ok ()⟩), ("conn-c", ⟨true, .ok ()⟩)]

/-! ### Claim theorems -/

/-- Claim C1: every response produced by a handler's `handle` or by the
dispatcher's `handleRequest` echoes the request's `id`, and exactly one of
`result`/`error` is present (result present iff error absent). -/
theorem mcp_response_echoes_id_and_is_exclusive :
    (∀ (dev : Bool) (h : Handler) (req : Request),
       (BaseMCPHandler.handle dev h req).id = req.id
       ∧ (BaseMCPHandler.handle dev h req).result.isSome
           = (BaseMCPHandler.handle dev h req).error.isNone)
    ∧ (∀ (dev : Bool) (reg : Registry) (req : Request),
       (MCPHandlerRegistry.handleRequest dev reg req).id = req.id
       ∧ (MCPHandlerRegistry.handleRequest dev reg req).result.isSome
           = (MCPHandlerRegistry.handleRequest dev reg req).error.isNone) := by
  have hh : ∀ (dev : Bool) (h : Handler) (req : Request),
      (BaseMCPHandler.handle dev h req).id = req.id
      ∧ (BaseMCPHandler.handle dev h req).result.isSome
          = (BaseMCPHandler.handle dev h req).error.isNone := by
    intro dev h req
    unfold BaseMCPHandler.handle
    cases BaseMCPHandler.runPipeline h req with
    | ok r => exact ⟨rfl, rfl⟩
    | error t =>
      cases t with
      | mcp e => exact ⟨rfl, rfl⟩
      | other m => exact ⟨rfl, rfl⟩
  refine ⟨hh, ?_⟩
  intro dev reg req
  unfold MCPHandlerRegistry.handleRequest
  cases MCPHandlerRegistry.getHandler reg req.method with
  | none => exact ⟨rfl, rfl⟩
  | some h => exact hh dev h req

/-- Claim C2 (amended): when no handler is registered for the request's
method, `handleRequest` synthesizes the `MethodNotFound` response — it never
throws, being a total function of the registry and request. -/
theorem dispatcher_unknown_method_returns_method_not_found
    (dev : Bool) (reg : Registry) (req : Request)
    (habsent : MCPHandlerRegistry.getHandler reg req.method = none) :
    MCPHandlerRegistry.handleRequest dev reg req
      = ⟨"2.0", req.id, none,
         some ⟨MCPErrorCode.METHOD_NOT_FOUND,
           "Method \x27" ++ req.method ++ "\x27 not found", none⟩⟩ := by
  unfold MCPHandlerRegistry.handleRequest
  rw [habsent]

/-- Claim C2, witness: a request for the unregistered method
`resources/list` against a registry holding only `tools/call`. -/
theorem dispatcher_unknown_method_witness :
    MCPHandlerRegistry.getHandler toolsCallOnlyRegistry "resources/list" = none
    ∧ MCPHandlerRegistry.handleRequest false toolsCallOnlyRegistry
        ⟨"2.0", .num 9, "resources/list", none⟩
      = ⟨"2.0", .num 9, none,
         some ⟨MCPErrorCode.METHOD_NOT_FOUND,
           "Method \x27resources/list\x27 not found", none⟩⟩ :=
  ⟨rfl, dispatcher_unknown_method_returns_method_not_found false toolsCallOnlyRegistry
    ⟨"2.0", .num 9, "resources/list", none⟩ rfl⟩

/-- Claim C2, counterexample to "the dispatcher lookup is the only place in
the system that produces MethodNotFound responses": `tools/call` is
registered, yet calling it with an unknown tool name yields a response whose
error carries the MethodNotFound code (-32601), produced inside
`ToolsCallHandler.execute`, not by the dispatcher lookup. -/
theorem method_not_found_also_produced_by_tools_call :
    MCPHandlerRegistry.hasHandler toolsCallOnlyRegistry unknownToolRequest.method = true
    ∧ (MCPHandlerRegistry.handleRequest false toolsCallOnlyRegistry unknownToolRequest).error
        = some ⟨MCPErrorCode.METHOD_NOT_FOUND, "Unknown tool: bogus_tool", none⟩ :=
  ⟨rfl, rfl⟩

/-- Claim C9: registering a handler under an already-bound method name fails
with the duplicate-registration error, and the registry map is unchanged by
the failed call. -/
theorem register_duplicate_method_rejected (reg : Registry) (h : Handler)
    (hdup : MCPHandlerRegistry.hasHandler reg h.method = true) :
    MCPHandlerRegistry.register reg h
        = .error ("Handler for method \x27" ++ h.method ++ "\x27 is already registered")
    ∧ MCPHandlerRegistry.registryAfter reg h = reg := by
  have h1 : MCPHandlerRegistry.register reg h
      = .error ("Handler for method \x27" ++ h.method ++ "\x27 is already registered") := by
    unfold MCPHandlerRegistry.register
    rw [hdup]
    simp
  refine ⟨h1, ?_⟩
  unfold MCPHandlerRegistry.registryAfter
  rw [h1]

/-- Claim C9, witness: registering the `initialized` handler a second time
fails and leaves the one-entry registry as it was. -/
theorem register_duplicate_witness :
    MCPHandlerRegistry.hasHandler initializedOnlyRegistry initializedHandler.method = true
    ∧ MCPHandlerRegistry.register initializedOnlyRegistry initializedHandler
        = .error "Handler for method \x27initialized\x27 is already registered"
    ∧ MCPHandlerRegistry.registryAfter initializedOnlyRegistry initializedHandler
        = initializedOnlyRegistry :=
  ⟨rfl,
   (register_duplicate_method_rejected initializedOnlyRegistry initializedHandler rfl).1,
   (register_duplicate_method_rejected initializedOnlyRegistry initializedHandler rfl).2⟩

/-- Claim C10: with any transport broken (disconnected or failing), broadcast
still settles one outcome per registered transport — it resolves rather than
raising — and every other healthy transport gets its delivery. -/
theorem broadcast_delivers_to_other_connected (ts : List (String × TransportModel))
    (k j : Nat) (hk : k < ts.length) (hj : j < ts.length)
    (hbroken : transportBroken (ts[k]).2) (hne : j ≠ k)
    (hhealthy : transportHealthy (ts[j]).2) :
    (MCPTransportManager.broadcast ts).length = ts.length
    ∧ (MCPTransportManager.broadcast ts)[j]?
        = some ((ts[j]).1, SendResult.delivered) := by
  constructor
  · simp [MCPTransportManager.broadcast]
  · have hmap : (MCPTransportManager.broadcast ts)[j]?
        = (ts[j]?).map (fun e => (e.1, MCPTransportManager.broadcastOne e.2)) := by
      simp [MCPTransportManager.broadcast]
    rw [hmap, List.getElem?_eq_getElem hj]
    obtain ⟨hc, hs⟩ := hhealthy
    simp [MCPTransportManager.broadcastOne, hc, hs]

/-- Claim C10, witness: three transports with the middle one disconnected;
the third still gets its delivery and all three sends settle. -/
theorem broadcast_witness :
    transportBroken (sampleTransports[1]).2
    ∧ (MCPTransportManager.broadcast sampleTransports).length = sampleTransports.length
    ∧ (MCPTransportManager.broadcast sampleTransports)[2]?
        = some ("conn-c", SendResult.delivered) := by
  refine ⟨Or.inl rfl, ?_, ?_⟩
  · exact (broadcast_delivers_to_other_connected sampleTransports 1 2 (by decide)
      (by decide) (Or.inl rfl) (by decide) ⟨rfl, rfl⟩).1
  · exact (broadcast_delivers_to_other_connected sampleTransports 1 2 (by decide)
      (by decide) (Or.inl rfl) (by decide) ⟨rfl, rfl⟩).2

/-- Claim C4 (amended): an `initialized` notification arriving on a Socket.IO
connection is routed through the ordinary request pipeline, and the message
listener hands a success Response (empty result, echoing the absent id) to
`transport.send` — a response IS transmitted, none being expected. -/
theorem initialized_notification_gets_response
    (dev : Bool) (reg : Registry) (req : Request)
    (hj : req.jsonrpc = "2.0") (hm : req.method = "initialized")
    (hreg : MCPHandlerRegistry.getHandler reg "initialized" = some initializedHandler) :
    socketMessageListenerSend dev reg req
      = some ⟨"2.0", req.id, some (.obj []), none⟩ := by
  simp [socketMessageListenerSend, MCPHandlerRegistry.handleRequest, hm, hreg,
        BaseMCPHandler.handle, BaseMCPHandler.runPipeline,
        BaseMCPHandler.validateRequest, hj, initializedHandler]

/-- Claim C4, witness: the concrete wire notification (no id field) against a
registry holding the real `initialized` handler. -/
theorem initialized_notification_witness :
    socketMessageListenerSend false initializedOnlyRegistry initializedNotification
      = some ⟨"2.0", initializedNotification.id, some (.obj []), none⟩ :=
  initialized_notification_gets_response false initializedOnlyRegistry
    initializedNotification rfl rfl rfl

/-- Claim C4, counterexample to "no response message is transmitted": the
listener output for the `initialized` notification is a transmitted Response,
not nothing. -/
theorem initialized_notification_response_counterexample :
    socketMessageListenerSend false initializedOnlyRegistry initializedNotification
      = some ⟨"2.0", RpcId.undef, some (Json.obj []), none⟩
    ∧ socketMessageListenerSend false initializedOnlyRegistry initializedNotification
      ≠ none := by
  have hsend : socketMessageListenerSend false initializedOnlyRegistry initializedNotification
      = some ⟨"2.0", RpcId.undef, some (Json.obj []), none⟩ := rfl
  exact ⟨hsend, by rw [hsend]; simp⟩

/-- Claim C6 (amended): a request whose `jsonrpc` is not the literal "2.0"
and whose method has a registered handler is answered with the
`InvalidRequest` (-32600) structural-validation error, regardless of the rest
of the request. -/
theorem registered_method_bad_jsonrpc_invalid_request
    (dev : Bool) (reg : Registry) (req : Request) (h : Handler)
    (hreg : MCPHandlerRegistry.getHandler reg req.method = some h)
    (hbad : req.jsonrpc ≠ "2.0") :
    MCPHandlerRegistry.handleRequest dev reg req
      = ⟨"2.0", req.id, none,
         some ⟨MCPErrorCode.INVALID_REQUEST, "Invalid JSON-RPC version", none⟩⟩ := by
  simp [MCPHandlerRegistry.handleRequest, hreg, BaseMCPHandler.handle,
        BaseMCPHandler.runPipeline, BaseMCPHandler.validateRequest, hbad]

/-- Claim C6, witness: a `jsonrpc: "1.0"` request to the registered
`initialized` method. -/
theorem registered_method_bad_jsonrpc_witness :
    MCPHandlerRegistry.handleRequest false initializedOnlyRegistry
        ⟨"1.0", .num 2, "initialized", none⟩
      = ⟨"2.0", .num 2, none,
         some ⟨MCPErrorCode.INVALID_REQUEST, "Invalid JSON-RPC version", none⟩⟩ :=
  registered_method_bad_jsonrpc_invalid_request false initializedOnlyRegistry
    ⟨"1.0", .num 2, "initialized", none⟩ initializedHandler rfl (by decide)

/-- Claim C6, counterexample to "regardless of the rest of the request": a
`jsonrpc: "1.0"` request whose method is unregistered gets `MethodNotFound`
(-32601), not `InvalidRequest` (-32600) — the dispatcher lookup runs before
structural validation. -/
theorem bad_jsonrpc_unregistered_method_counterexample :
    (MCPHandlerRegistry.handleRequest false toolsCallOnlyRegistry
        ⟨"1.0", .num 1, "nope", none⟩).error
      = some ⟨MCPErrorCode.METHOD_NOT_FOUND, "Method \x27nope\x27 not found", none⟩
    ∧ MCPErrorCode.METHOD_NOT_FOUND ≠ MCPErrorCode.INVALID_REQUEST :=
  ⟨rfl, by decide⟩

/-- Claim C7: a schema-valid `initialize` request carrying the exact
supported protocol version succeeds with the fixed result — its
`protocolVersion` equals the requested version and its `capabilities` is the
static server capability set — and the result is the same constant for every
such request, hence independent of the client's declared capabilities. -/
theorem initialize_supported_version_fixed_result
    (dev : Bool) (si : ServerInfo) (req : Request) (p : Json)
    (hj : req.jsonrpc = "2.0") (hm : req.method = "initialize")
    (hp : req.params = some p)
    (hok : initializeParamsOk p = true)
    (hver : jsonGetStr p "protocolVersion" = "2024-11-05") :
    BaseMCPHandler.handle dev (initializeHandler si) req
      = ⟨"2.0", req.id, some (initializeResultJson si), none⟩
    ∧ jsonGet (initializeResultJson si) "protocolVersion" = some (.str "2024-11-05")
    ∧ jsonGet (initializeResultJson si) "capabilities" = some serverCapabilitiesJson := by
  have hs : InitializeHandler.isProtocolVersionSupported "2024-11-05" = true := rfl
  refine ⟨?_, rfl, rfl⟩
  simp [BaseMCPHandler.handle, BaseMCPHandler.runPipeline, BaseMCPHandler.validateRequest,
        initializeHandler, InitializeHandler.validateParams, hj, hm, hp, hok,
        InitializeHandler.execute, hver, hs]

/-- Claim C7, witness: two concrete initialize requests differing only in
client capabilities both produce the identical fixed result. -/
theorem initialize_supported_version_witness :
    BaseMCPHandler.handle false (initializeHandler sampleServerInfo)
        ⟨"2.0", .num 7, "initialize", some supportedInitializeParams⟩
      = ⟨"2.0", .num 7, some (initializeResultJson sampleServerInfo), none⟩
    ∧ BaseMCPHandler.handle false (initializeHandler sampleServerInfo)
        ⟨"2.0", .num 7, "initialize", some supportedInitializeParamsAltCaps⟩
      = ⟨"2.0", .num 7, some (initializeResultJson sampleServerInfo), none⟩ :=
  ⟨(initialize_supported_version_fixed_result false sampleServerInfo
      ⟨"2.0", .num 7, "initialize", some supportedInitializeParams⟩
      supportedInitializeParams rfl rfl rfl rfl rfl).1,
   (initialize_supported_version_fixed_result false sampleServerInfo
      ⟨"2.0", .num 7, "initialize", some supportedInitializeParamsAltCaps⟩
      supportedInitializeParamsAltCaps rfl rfl rfl rfl rfl).1⟩

/-- Claim C8: a schema-valid `initialize` request whose protocol version is
outside the fixed allow-list is answered with `InitializationFailed` (-32000)
whose data carries the supported-version list — exact match or reject, no
fallback. -/
theorem initialize_unsupported_version_rejected
    (dev : Bool) (si : ServerInfo) (req : Request) (p : Json) (v : String)
    (hj : req.jsonrpc = "2.0") (hm : req.method = "initialize")
    (hp : req.params = some p)
    (hok : initializeParamsOk p = true)
    (hver : jsonGetStr p "protocolVersion" = v)
    (hunsup : InitializeHandler.isProtocolVersionSupported v = false) :
    BaseMCPHandler.handle dev (initializeHandler si) req
      = ⟨"2.0", req.id, none,
         some ⟨MCPErrorCode.INITIALIZATION_FAILED,
           "Unsupported protocol version: " ++ v ++ ". Supported versions: 2024-11-05",
           some (.obj [("supportedVersions", .arr [.str "2024-11-05"])])⟩⟩ := by
  simp [BaseMCPHandler.handle, BaseMCPHandler.runPipeline, BaseMCPHandler.validateRequest,
        initializeHandler, InitializeHandler.validateParams, hj, hm, hp, hok,
        InitializeHandler.execute, hver, hunsup]

/-- Claim C8, witness: a concrete initialize request asking for version
2025-03-26. -/
theorem initialize_unsupported_version_witness :
    BaseMCPHandler.handle false (initializeHandler sampleServerInfo)
        ⟨"2.0", .str "init-1", "initialize", some unsupportedInitializeParams⟩
      = ⟨"2.0", .str "init-1", none,
         some ⟨MCPErrorCode.INITIALIZATION_FAILED,
           "Unsupported protocol version: 2025-03-26. Supported versions: 2024-11-05",
           some (.obj [("supportedVersions", .arr [.str "2024-11-05"])])⟩⟩ :=
  initialize_unsupported_version_rejected false sampleServerInfo
    ⟨"2.0", .str "init-1", "initialize", some unsupportedInitializeParams⟩
    unsupportedInitializeParams "2025-03-26" rfl rfl rfl rfl rfl rfl

/-! ### Stdio per-line loop lemmas -/

/-- A blank (after trimming) stdin line is skipped by the per-line loop. -/
theorem processLines_cons_blank (jp : String → Except String Json)
    (l : String) (ls : List String) (hb : jsTrim l = "") :
    StdioTransport.processLines jp (l :: ls) = StdioTransport.processLines jp ls := by
  simp [StdioTransport.processLines, hb]

/-- A successfully parsed stdin line contributes its message event and the
loop continues. -/
theorem processLines_cons_ok (jp : String → Except String Json)
    (l : String) (ls : List String) (req : Request) (hb : jsTrim l ≠ "")
    (hreq : StdioTransport.parseMessage jp (jsTrim l) = .ok req) :
    StdioTransport.processLines jp (l :: ls)
      = TransportEvent.message req :: StdioTransport.processLines jp ls := by
  simp [StdioTransport.processLines, hb, hreq]

/-- A failing stdin line makes the catch emit one `ParseError` event and
abandons the remaining lines of the read. -/
theorem processLines_cons_fail (jp : String → Except String Json)
    (l : String) (ls : List String) (hb : jsTrim l ≠ "")
    (hfail : (StdioTransport.parseMessage jp (jsTrim l)).isOk = false) :
    StdioTransport.processLines jp (l :: ls) = [.errorEv stdinDataParseError] := by
  cases hp : StdioTransport.parseMessage jp (jsTrim l) with
  | ok req => rw [hp] at hfail; exact Bool.noConfusion hfail
  | error err => simp [StdioTransport.processLines, hb, hp]

/-- Blank lines deliver nothing. -/
theorem lineDelivery_blank (jp : String → Except String Json) (l : String)
    (hb : jsTrim l = "") : lineDelivery jp l = none := by
  simp [lineDelivery, hb]

/-- Parsed lines deliver their message event. -/
theorem lineDelivery_ok (jp : String → Except String Json) (l : String) (req : Request)
    (hb : jsTrim l ≠ "") (hreq : StdioTransport.parseMessage jp (jsTrim l) = .ok req) :
    lineDelivery jp l = some (.message req) := by
  simp [lineDelivery, hb, hreq]

/-- Every `error` event the stdio per-line loop emits is the one fixed
`ParseError` from the `handleStdinData` catch block. -/
theorem processLines_error_events (jp : String → Except String Json) :
    ∀ (ls : List String) (e : MCPError),
      TransportEvent.errorEv e ∈ StdioTransport.processLines jp ls →
      e = stdinDataParseError := by
  intro ls
  induction ls with
  | nil => intro e he; simp [StdioTransport.processLines] at he
  | cons l ls ih =>
    intro e he
    by_cases hb : jsTrim l = ""
    · rw [processLines_cons_blank jp l ls hb] at he
      exact ih e he
    · cases hp : StdioTransport.parseMessage jp (jsTrim l) with
      | ok req =>
        rw [processLines_cons_ok jp l ls req hb hp] at he
        rcases List.mem_cons.mp he with h | h
        · exact absurd h (by intro hh; cases hh)
        · exact ih e h
      | error err =>
        rw [processLines_cons_fail jp l ls hb (by rw [hp]; rfl)] at he
        simp at he
        exact he

/-- When every line of a read is blank or parseable, the loop delivers
exactly the per-line events, in order. -/
theorem processLines_all_ok (jp : String → Except String Json) :
    ∀ ls : List String, (∀ l ∈ ls, lineOk jp l) →
      StdioTransport.processLines jp ls = ls.filterMap (lineDelivery jp) := by
  intro ls
  induction ls with
  | nil => intro _; rfl
  | cons l ls ih =>
    intro hall
    have hrest : ∀ x ∈ ls, lineOk jp x := fun x hx => hall x (List.mem_cons_of_mem l hx)
    rcases hall l (List.mem_cons_self l ls) with hblank | ⟨req, hreq⟩
    · rw [processLines_cons_blank jp l ls hblank, ih hrest]
      simp [List.filterMap_cons, lineDelivery_blank jp l hblank]
    · by_cases hb : jsTrim l = ""
      · rw [processLines_cons_blank jp l ls hb, ih hrest]
        simp [List.filterMap_cons, lineDelivery_blank jp l hb]
      · rw [processLines_cons_ok jp l ls req hb hreq, ih hrest]
        simp [List.filterMap_cons, lineDelivery_ok jp l req hb hreq]

/-- When a read's lines are good up to a first failing line, the loop
delivers the good lines' events, then the single `ParseError` event, and
skips everything after the failing line. -/
theorem processLines_first_failure (jp : String → Except String Json) :
    ∀ (pre : List String) (bad : String) (post : List String),
      (∀ l ∈ pre, lineOk jp l) →
      jsTrim bad ≠ "" →
      (StdioTransport.parseMessage jp (jsTrim bad)).isOk = false →
      StdioTransport.processLines jp (pre ++ bad :: post)
        = pre.filterMap (lineDelivery jp) ++ [.errorEv stdinDataParseError] := by
  intro pre
  induction pre with
  | nil =>
    intro bad post _ hnb hfail
    rw [List.nil_append, processLines_cons_fail jp bad post hnb hfail]
    rfl
  | cons l pre ih =>
    intro bad post hall hnb hfail
    have hrest : ∀ x ∈ pre, lineOk jp x := fun x hx => hall x (List.mem_cons_of_mem l hx)
    have hrec := ih bad post hrest hnb hfail
    rcases hall l (List.mem_cons_self l pre) with hblank | ⟨req, hreq⟩
    · rw [List.cons_append, processLines_cons_blank jp l _ hblank, hrec]
      simp [List.filterMap_cons, lineDelivery_blank jp l hblank]
    · by_cases hb : jsTrim l = ""
      · rw [List.cons_append, processLines_cons_blank jp l _ hb, hrec]
        simp [List.filterMap_cons, lineDelivery_blank jp l hb]
      · rw [List.cons_append, processLines_cons_ok jp l _ req hb hreq, hrec]
        simp [List.filterMap_cons, lineDelivery_ok jp l req hb hreq]

/-- Claim C5 (amended): across stdio reads the incomplete trailing fragment
is retained in the buffer and prefixed onto the next read, the connection
flag is untouched, each line before a failure is parsed and delivered
independently, and a parse failure emits one transport error event — but the
remaining complete lines of the same read are abandoned (lines of later
reads are unaffected). -/
theorem stdio_buffering_and_line_processing (jp : String → Except String Json)
    (conn : Bool) (b c : String) :
    (StdioTransport.handleStdinData jp ⟨conn, b⟩ c).1
        = ⟨conn, (jsSplitNewline (b ++ c)).getLastD ""⟩
    ∧ StdioTransport.handleStdinData jp ⟨conn, b⟩ c
        = StdioTransport.handleStdinData jp ⟨conn, ""⟩ (b ++ c)
    ∧ (∀ (pre : List String) (bad : String) (post : List String),
         (jsSplitNewline (b ++ c)).dropLast = pre ++ bad :: post →
         (∀ l ∈ pre, lineOk jp l) →
         jsTrim bad ≠ "" →
         (StdioTransport.parseMessage jp (jsTrim bad)).isOk = false →
         (StdioTransport.handleStdinData jp ⟨conn, b⟩ c).2
           = pre.filterMap (lineDelivery jp) ++ [.errorEv stdinDataParseError])
    ∧ ((∀ l ∈ (jsSplitNewline (b ++ c)).dropLast, lineOk jp l) →
         (StdioTransport.handleStdinData jp ⟨conn, b⟩ c).2
           = ((jsSplitNewline (b ++ c)).dropLast).filterMap (lineDelivery jp)) := by
  have hbc : ("" : String) ++ (b ++ c) = b ++ c := by
    generalize b ++ c = s
    cases s with
    | mk data => rfl
  have h2 : (StdioTransport.handleStdinData jp ⟨conn, b⟩ c).2
      = StdioTransport.processLines jp ((jsSplitNewline (b ++ c)).dropLast) := rfl
  refine ⟨rfl, ?_, ?_, ?_⟩
  · have hl : StdioTransport.handleStdinData jp ⟨conn, b⟩ c
        = (⟨conn, (jsSplitNewline (b ++ c)).getLastD ""⟩,
           StdioTransport.processLines jp ((jsSplitNewline (b ++ c)).dropLast)) := rfl
    have hr : StdioTransport.handleStdinData jp ⟨conn, ""⟩ (b ++ c)
        = (⟨conn, (jsSplitNewline ("" ++ (b ++ c))).getLastD ""⟩,
           StdioTransport.processLines jp ((jsSplitNewline ("" ++ (b ++ c))).dropLast)) := rfl
    rw [hl, hr, hbc]
  · intro pre bad post hsplit hall hnb hfail
    rw [h2, hsplit]
    exact processLines_first_failure jp pre bad post hall hnb hfail
  · intro hall
    rw [h2]
    exact processLines_all_ok jp _ hall

/-- Claim C5, witness: the read "bad\ngood\n" against an empty buffer keeps
the buffer empty and the connection up, and emits exactly the one error
event. -/
theorem stdio_buffering_witness :
    (StdioTransport.handleStdinData sampleJsonParse ⟨true, ""⟩ "bad\ngood\n").1
      = ⟨true, ""⟩
    ∧ (StdioTransport.handleStdinData sampleJsonParse ⟨true, ""⟩ "bad\ngood\n").2
      = [.errorEv stdinDataParseError] := by
  have h := stdio_buffering_and_line_processing sampleJsonParse true "" "bad\ngood\n"
  constructor
  · exact h.1
  · exact h.2.2.1 [] "bad" ["good"] rfl (by intro l hl; cases hl) (by decide) rfl

/-- Claim C5, counterexample to "every other complete line is still parsed
and delivered": in the read "bad\ngood\n" the complete line "good" parses
fine, yet the only event emitted is the error for "bad" — the good line is
never delivered. -/
theorem stdio_abandons_remaining_lines_counterexample :
    (jsSplitNewline "bad\ngood\n").dropLast = ["bad", "good"]
    ∧ (StdioTransport.parseMessage sampleJsonParse "good").isOk = true
    ∧ (StdioTransport.handleStdinData sampleJsonParse ⟨true, ""⟩ "bad\ngood\n").2
        = [.errorEv stdinDataParseError] :=
  ⟨rfl, rfl, rfl⟩

/-- Claim C3 (amended): the codec distinguishes the two failure kinds in the
error it raises — `ParseError` (-32700) for an unparseable line,
`InvalidRequest` (-32600) for an envelope violation, distinct codes — but
the transport `error` event actually emitted carries the `ParseError` code
for every inbound failure, on both the WebSocket and the stdio transport. -/
theorem message_codec_error_classification :
    (∀ (jp : String → Except String Json) (line err : String),
       jp line = .error err →
       StdioTransport.parseMessage jp line
         = .error ⟨MCPErrorCode.PARSE_ERROR, "Invalid JSON message: " ++ err, none⟩)
    ∧ (∀ (jp : String → Except String Json) (line : String) (j : Json),
       jp line = .ok j → j ≠ Json.null → envelopeOk j = false →
       exceptErrCode (StdioTransport.parseMessage jp line)
         = some MCPErrorCode.INVALID_REQUEST)
    ∧ (∀ data : Json, (WebSocketTransport.handleMessage data).isOk = false →
       WebSocketTransport.onSocketMessage data
         = [.errorEv ⟨MCPErrorCode.PARSE_ERROR, "Failed to parse incoming message", none⟩])
    ∧ (∀ (jp : String → Except String Json) (st : StdioState) (chunk : String) (e : MCPError),
       TransportEvent.errorEv e ∈ (StdioTransport.handleStdinData jp st chunk).2 →
       e.code = MCPErrorCode.PARSE_ERROR)
    ∧ MCPErrorCode.PARSE_ERROR ≠ MCPErrorCode.INVALID_REQUEST := by
  refine ⟨?_, ?_, ?_, ?_, by decide⟩
  · intro jp line err h
    unfold StdioTransport.parseMessage
    rw [h]
  · intro jp line j hok hnull hbad
    cases j with
    | null => exact absurd rfl hnull
    | bool v => unfold StdioTransport.parseMessage; rw [hok]; rfl
    | num n => unfold StdioTransport.parseMessage; rw [hok]; rfl
    | str s => unfold StdioTransport.parseMessage; rw [hok]; rfl
    | arr xs => unfold StdioTransport.parseMessage; rw [hok]; rfl
    | obj fs =>
      unfold envelopeOk at hbad
      simp only [StdioTransport.parseMessage, hok]
      split
      · split
        · simp_all [exceptErrCode]
        · simp [exceptErrCode]
      · simp [exceptErrCode]
  · intro data hfail
    unfold WebSocketTransport.onSocketMessage
    cases hm : WebSocketTransport.handleMessage data with
    | ok req => rw [hm] at hfail; exact Bool.noConfusion hfail
    | error e => rfl
  · intro jp st chunk e hmem
    have hp : (StdioTransport.handleStdinData jp st chunk).2
        = StdioTransport.processLines jp
            ((jsSplitNewline (st.messageBuffer ++ chunk)).dropLast) := rfl
    rw [hp] at hmem
    rw [processLines_error_events jp _ e hmem]
    rfl

/-- Claim C3, witness: concrete lines exercising all four facts — an
unparseable line, an envelope-violating line, a non-object WebSocket
payload, and the fixed stdio error event. -/
theorem message_codec_error_classification_witness :
    StdioTransport.parseMessage sampleJsonParse "bad"
      = .error ⟨MCPErrorCode.PARSE_ERROR,
          "Invalid JSON message: Unexpected token b in JSON at position 0", none⟩
    ∧ exceptErrCode (StdioTransport.parseMessage sampleJsonParseEnvelope "env")
      = some MCPErrorCode.INVALID_REQUEST
    ∧ WebSocketTransport.onSocketMessage (.str "not-an-object")
      = [.errorEv ⟨MCPErrorCode.PARSE_ERROR, "Failed to parse incoming message", none⟩]
    ∧ stdinDataParseError.code = MCPErrorCode.PARSE_ERROR := by
  refine ⟨?_, ?_, ?_, ?_⟩
  · exact message_codec_error_classification.1 sampleJsonParse "bad"
      "Unexpected token b in JSON at position 0" rfl
  · exact message_codec_error_classification.2.1 sampleJsonParseEnvelope "env"
      (.obj [("jsonrpc", .str "1.0"), ("method", .str "ping")]) rfl
      (fun hh => Json.noConfusion hh) rfl
  · exact message_codec_error_classification.2.2.1 (.str "not-an-object") rfl
  · exact message_codec_error_classification.2.2.2.1 sampleJsonParseEnvelope
      ⟨true, ""⟩ "env\n" stdinDataParseError
      (by rw [show (StdioTransport.handleStdinData sampleJsonParseEnvelope
                ⟨true, ""⟩ "env\n").2
              = [TransportEvent.errorEv stdinDataParseError] from rfl]
          exact List.mem_singleton.mpr rfl)

/-- Claim C3, counterexample to "the two kinds carry distinct wire codes in
the emitted error": the envelope-violating line `env` is classified
`InvalidRequest` (-32600) by `parseMessage`, yet the transport error event
the stdio read emits for it carries `ParseError` (-32700) — the same code an
unparseable line gets. -/
theorem envelope_violation_emitted_as_parse_error :
    exceptErrCode (StdioTransport.parseMessage sampleJsonParseEnvelope "env")
      = some MCPErrorCode.INVALID_REQUEST
    ∧ (StdioTransport.handleStdinData sampleJsonParseEnvelope ⟨true, ""⟩ "env\n").2
      = [.errorEv stdinDataParseError]
    ∧ stdinDataParseError.code = MCPErrorCode.PARSE_ERROR
    ∧ MCPErrorCode.PARSE_ERROR ≠ MCPErrorCode.INVALID_REQUEST :=
  ⟨rfl, rfl, rfl, by decide⟩
